import Mathlib

/-!
Verification of the RAG research-paper-curator ingestion pipeline.

Shallow embedding of:
* `src/services/metadata_fetcher.py` — `MetadataFetcher.fetch_and_process_papers`,
  `_process_pdfs_batch`, `_download_and_parse_pipeline`;
* `src/services/arxiv/arxiv_client.py` — `ArxivClient.download_pdf`,
  `_download_with_retry`, `_get_pdf_path`;
* `src/services/pdf_parser/parser.py` — `DoclingParser._validate_pdf`;
together with a small operational model of the two-semaphore concurrency
discipline of `_process_pdfs_batch`.
-/

namespace RagCurator

/-! ## Data model (`src/schemas/arxiv/paper.py`, `src/schemas/pdf_parser/models.py`) -/

/-- `ArxivPaper` from `src/schemas/arxiv/paper.py`. -/
structure ArxivPaper where
  arxiv_id : String
  title : String
  authors : List String
  abstract : String
  categories : List String
  pdf_url : String
deriving Repr, DecidableEq

/-- `PaperSection` from `src/schemas/pdf_parser/models.py`. -/
structure PaperSection where
  title : String
  content : String
  level : Int
deriving Repr, DecidableEq

/-- `PdfContent` from `src/schemas/pdf_parser/models.py` (`parser_used` is the
single-constructor enum `ParserType.DOCLING`, omitted; `metadata` is a free-form
dict not inspected by any claim, omitted). -/
structure PdfContent where
  sections : List PaperSection
  raw_text : String
deriving Repr, DecidableEq

/-- Modelled from the spec: `ArxivMetadata` is imported by
`src/services/metadata_fetcher.py` from `src.schemas.pdf_parser.models` but its
class body is not among the source files; its fields are taken from the keyword
arguments of its construction site (`metadata_fetcher.py`, lines 232-239). -/
structure ArxivMetadata where
  title : String
  authors : List String
  abstract : String
  arxiv_id : String
  categories : List String
  pdf_url : String
deriving Repr, DecidableEq

/-- Modelled from the spec: `ParsedPaper` is imported by
`src/services/metadata_fetcher.py` but its class body is not among the source
files; its fields are taken from its construction site
(`metadata_fetcher.py`, line 242). -/
structure ParsedPaper where
  arxiv_metadata : ArxivMetadata
  pdf_content : PdfContent
deriving Repr, DecidableEq

/-! ## Per-item pipeline results

`_process_pdfs_batch` gathers the per-item coroutines with
`asyncio.gather(..., return_exceptions=True)`, so each slot of
`pipeline_results` is either a raised exception, the 2-tuple
`(download_success, parsed_paper)` returned by `_download_and_parse_pipeline`,
or — in the defensively handled branches — some other truthy non-tuple value
or a falsy value. -/

/-- One slot of the `pipeline_results` list in `_process_pdfs_batch`. -/
inductive PipelineResult where
  /-- The normal return `(download_success, parsed_paper)` of
  `_download_and_parse_pipeline` (a non-empty tuple, hence truthy). -/
  | tuple2 (download_success : Bool) (parsed_paper : Option ParsedPaper)
  /-- An exception captured by `gather(..., return_exceptions=True)`,
  carrying its `str(...)` rendering. -/
  | raised (msg : String)
  /-- A truthy result that is not a 2-tuple; carries `type(result).__name__`. -/
  | nonTuple (typeName : String)
  /-- A falsy result (`None`, empty container, ...). -/
  | falsy
deriving Repr, DecidableEq

/-- The `results` dictionary built by `_process_pdfs_batch`
(`metadata_fetcher.py`, lines 123-130). -/
structure BatchResults where
  downloaded : Nat
  parsed : Nat
  parsed_papers : List (String × ParsedPaper)
  errors : List String
  download_failures : List String
  parse_failures : List String
deriving Repr, DecidableEq

/-- The initial `results` dictionary of `_process_pdfs_batch`. -/
def initialBatchResults : BatchResults :=
  { downloaded := 0, parsed := 0, parsed_papers := [], errors := [],
    download_failures := [], parse_failures := [] }

/-- The body of the `for paper, result in zip(papers, pipeline_results, ...)`
loop of `_process_pdfs_batch` (`metadata_fetcher.py`, lines 147-179). -/
def processOne (acc : BatchResults) (item : ArxivPaper × PipelineResult) :
    BatchResults :=
  match item.2 with
  | .raised msg =>
      { acc with errors :=
          acc.errors ++ ["Pipeline error for " ++ item.1.arxiv_id ++ ": " ++ msg] }
  | .nonTuple typeName =>
      { acc with errors :=
          acc.errors ++ ["Pipeline error for " ++ item.1.arxiv_id ++
            ": Unexpected result type " ++ typeName] }
  | .tuple2 download_success parsed_paper =>
      if download_success then
        match parsed_paper with
        | some pp =>
            { acc with downloaded := acc.downloaded + 1,
                       parsed := acc.parsed + 1,
                       parsed_papers := acc.parsed_papers ++ [(item.1.arxiv_id, pp)] }
        | none =>
            { acc with downloaded := acc.downloaded + 1,
                       parse_failures := acc.parse_failures ++ [item.1.arxiv_id] }
      else
        { acc with download_failures := acc.download_failures ++ [item.1.arxiv_id] }
  | .falsy =>
      { acc with download_failures := acc.download_failures ++ [item.1.arxiv_id] }

/-- `_process_pdfs_batch` (`metadata_fetcher.py`, lines 106-196): fold the
result-processing loop over the batch, then copy the failure lists into the
general `errors` list "for backward compatibility" (lines 190-194). The
per-item pipeline outcomes are passed in, already zipped with their papers. -/
def processPdfsBatch (items : List (ArxivPaper × PipelineResult)) : BatchResults :=
  let r := items.foldl processOne initialBatchResults
  { r with errors :=
      r.errors ++ r.download_failures.map (fun i => "Download failed: " ++ i)
              ++ r.parse_failures.map (fun i => "PDF parse failed: " ++ i) }

/-! ## `fetch_and_process_papers` (`metadata_fetcher.py`, lines 52-104) -/

/-- The `results` dictionary of `fetch_and_process_papers`
(`metadata_fetcher.py`, lines 64-72). `processing_time` is initialized to `0`
and never updated by the code. -/
structure FetchRunResults where
  papers_fetched : Nat
  pdfs_downloaded : Nat
  pdfs_parsed : Nat
  papers_stored : Nat
  papers_indexed : Nat
  errors : List String
  processing_time : Nat
deriving Repr, DecidableEq

/-- The initial `results` dictionary of `fetch_and_process_papers`. -/
def initialFetchRunResults : FetchRunResults :=
  { papers_fetched := 0, pdfs_downloaded := 0, pdfs_parsed := 0,
    papers_stored := 0, papers_indexed := 0, errors := [], processing_time := 0 }

/-- `fetch_and_process_papers` (`metadata_fetcher.py`, lines 52-104).

The environment is abstracted into two oracles: `fetch n` is the behaviour of
`self.arxiv_client.fetch_papers(max_results=n)` (a paper list or a raised
exception's message), and `pipelineOf p` is the gathered outcome of
`self._download_and_parse_pipeline(p, ...)`. The code calls
`fetch_papers(max_results=5)` with the literal `5` (line 76); its own
`max_results` parameter is never read. On any exception the function raises
`PipelineException(f"Pipeline execution failed: {e}")`, modelled as `.error`. -/
def fetchAndProcessPapers (max_results : Option Nat)
    (fetch : Nat → Except String (List ArxivPaper))
    (pipelineOf : ArxivPaper → PipelineResult) :
    Except String FetchRunResults :=
  match fetch 5 with
  | .error e => .error ("Pipeline execution failed: " ++ e)
  | .ok papers =>
      if papers.isEmpty then
        .ok { initialFetchRunResults with papers_fetched := papers.length }
      else
        let pdf := processPdfsBatch (papers.map (fun p => (p, pipelineOf p)))
        .ok { papers_fetched := papers.length,
              pdfs_downloaded := pdf.downloaded,
              pdfs_parsed := pdf.parsed,
              papers_stored := 0, papers_indexed := 0,
              errors := pdf.errors,
              processing_time := 0 }

/-! ## `ArxivClient` download path (`src/services/arxiv/arxiv_client.py`) -/

/-- The fields of `ArxivSettings` (`src/config.py`, lines 19-43) used by the
download path. Delays are seconds, modelled as rationals. -/
structure ArxivCfg where
  rate_limit_delay : Rat
  download_retry_delay_base : Rat
  download_max_retries : Nat
deriving Repr, DecidableEq

/-- The default values of the download-related `ArxivSettings` fields
(`src/config.py`: `rate_limit_delay = 3.0`, `download_retry_delay_base = 5.0`,
`download_max_retries = 3`). -/
def defaultArxivCfg : ArxivCfg :=
  { rate_limit_delay := 3, download_retry_delay_base := 5,
    download_max_retries := 3 }

/-- Outcome of one network attempt of `_download_with_retry`. A failed
streaming attempt may or may not have written partial bytes to the target
path (`writesPartial`); a successful attempt always leaves the full file. -/
inductive AttemptOutcome where
  /-- The stream completed; the whole file was written. -/
  | success
  /-- `httpx.TimeoutException` (retriable). -/
  | timeout (writesPartial : Bool)
  /-- Another `httpx.HTTPError` (retriable). -/
  | httpError (writesPartial : Bool)
  /-- Any other exception (not retried). -/
  | otherError (writesPartial : Bool)
deriving Repr, DecidableEq

/-- `True` when the outcome is one of the two retriable failure classes
(`httpx.TimeoutException` or another `httpx.HTTPError`). -/
def AttemptOutcome.retriable : AttemptOutcome → Bool
  | .timeout _ => true
  | .httpError _ => true
  | _ => false

/-- Whether a failed attempt left (or kept) bytes at the target path. -/
def AttemptOutcome.leavesBytes : AttemptOutcome → Bool
  | .success => true
  | .timeout w => w
  | .httpError w => w
  | .otherError w => w

/-- Observable suspension/network events of the download path, in program
order. -/
inductive DlEvent where
  /-- `await asyncio.sleep(self.rate_limit_delay)` (`arxiv_client.py`, line 307). -/
  | rateLimitWait (seconds : Rat)
  /-- One `client.stream("GET", url)` request, tagged with its 0-based
  attempt index. -/
  | networkAttempt (idx : Nat)
  /-- `await asyncio.sleep(wait_time)` between attempts. -/
  | backoffWait (seconds : Rat)
deriving Repr, DecidableEq

/-- Recognizer for `DlEvent.networkAttempt`. -/
def DlEvent.isNetworkAttempt : DlEvent → Bool
  | .networkAttempt _ => true
  | _ => false

/-- Recognizer for `DlEvent.rateLimitWait`. -/
def DlEvent.isRateLimitWait : DlEvent → Bool
  | .rateLimitWait _ => true
  | _ => false

/-- The seconds of the backoff waits of a trace, in order. -/
def backoffWaits : List DlEvent → List Rat
  | [] => []
  | .backoffWait s :: es => s :: backoffWaits es
  | _ :: es => backoffWaits es

/-- How `_download_with_retry` terminates. -/
inductive DlTermination where
  /-- `return True`: the download succeeded. -/
  | ok
  /-- `return False` after the `for` loop: only reachable when the loop body
  never runs (`max_retries = 0`); the partial-file cleanup at lines 343-344
  runs on this path. -/
  | fellThrough
  /-- `raise PDFDownloadTimeoutError` on the last attempt's timeout. -/
  | raisedTimeoutExhausted
  /-- `raise PDFDownloadException` on the last attempt's HTTP error. -/
  | raisedDownloadFailed
  /-- `raise PDFDownloadException` on an unexpected error (any attempt). -/
  | raisedUnexpected
deriving Repr, DecidableEq

/-- `True` on the terminations that raise an exception out of
`_download_with_retry`. -/
def DlTermination.raises : DlTermination → Bool
  | .raisedTimeoutExhausted => true
  | .raisedDownloadFailed => true
  | .raisedUnexpected => true
  | _ => false

/-- The `for attempt in range(max_retries)` loop of `_download_with_retry`
(`arxiv_client.py`, lines 309-340), followed by the fall-through cleanup
(lines 342-346). `attempt` is the 0-based index of the current attempt,
`remaining = max_retries - attempt` the number of loop iterations left, and
`fileExists` whether any bytes currently sit at the target path. The retry
condition `attempt < max_retries - 1` of the code is `2 ≤ remaining` here.
Returns the event trace, the termination, and the final file state. -/
def retryLoop (cfg : ArxivCfg) (outcomes : Nat → AttemptOutcome) :
    (attempt remaining : Nat) → (fileExists : Bool) →
    List DlEvent × DlTermination × Bool
  | _, 0, fileExists => ([], .fellThrough, fileExists && false)
  | attempt, remaining + 1, fileExists =>
    match outcomes attempt with
    | .success => ([.networkAttempt attempt], .ok, true)
    | .timeout w =>
        if 1 ≤ remaining then
          let rest := retryLoop cfg outcomes (attempt + 1) remaining (fileExists || w)
          (.networkAttempt attempt ::
             .backoffWait (cfg.download_retry_delay_base * ((attempt : Rat) + 1)) ::
             rest.1, rest.2)
        else
          ([.networkAttempt attempt], .raisedTimeoutExhausted, fileExists || w)
    | .httpError w =>
        if 1 ≤ remaining then
          let rest := retryLoop cfg outcomes (attempt + 1) remaining (fileExists || w)
          (.networkAttempt attempt ::
             .backoffWait (cfg.download_retry_delay_base * ((attempt : Rat) + 1)) ::
             rest.1, rest.2)
        else
          ([.networkAttempt attempt], .raisedDownloadFailed, fileExists || w)
    | .otherError w =>
        ([.networkAttempt attempt], .raisedUnexpected, fileExists || w)

/-- `_download_with_retry` (`arxiv_client.py`, lines 299-346): one
rate-limit sleep, then the attempt loop. `outcomes` is the network's
behaviour on each attempt index; `fileExists` whether the target path holds a
file before the call. -/
def downloadWithRetry (cfg : ArxivCfg) (outcomes : Nat → AttemptOutcome)
    (fileExists : Bool) : List DlEvent × DlTermination × Bool :=
  let rest := retryLoop cfg outcomes 0 cfg.download_max_retries fileExists
  (.rateLimitWait cfg.rate_limit_delay :: rest.1, rest.2)

/-- `_get_pdf_path` (`arxiv_client.py`, lines 286-297): cache filename for an
arXiv id (the cache-directory prefix is constant and omitted). -/
def getPdfPath (arxiv_id : String) : String :=
  (arxiv_id.replace "/" "_") ++ ".pdf"

/-- Result of `download_pdf`: either a returned value (`Some path` / `None`)
or a propagated exception from `_download_with_retry`. -/
inductive DownloadPdfResult where
  | returned (path : Option String)
  | raised (t : DlTermination)
deriving Repr, DecidableEq

/-- `download_pdf` (`arxiv_client.py`, lines 258-284). The cache is the set
of paths at which a file currently exists, as a list; `outcomes` drives the
retry loop if it runs. Returns the result, the cache afterwards, and the
trace of events (empty when no network path is taken). -/
def downloadPdf (cfg : ArxivCfg) (outcomes : Nat → AttemptOutcome)
    (cache : List String) (paper : ArxivPaper) (force_download : Bool) :
    DownloadPdfResult × List String × List DlEvent :=
  if paper.pdf_url = "" then (.returned none, cache, [])
  else
    let pdf_path := getPdfPath paper.arxiv_id
    if cache.contains pdf_path && !force_download then
      (.returned (some pdf_path), cache, [])
    else
      let r := downloadWithRetry cfg outcomes (cache.contains pdf_path)
      let cache' := if r.2.2 then
          if cache.contains pdf_path then cache else cache ++ [pdf_path]
        else cache.erase pdf_path
      match r.2.1 with
      | .ok => (.returned (some pdf_path), cache', r.1)
      | .fellThrough => (.returned none, cache', r.1)
      | t => (.raised t, cache', r.1)

/-! ## PDF validation (`src/services/pdf_parser/parser.py`) -/

/-- The `DoclingParser` limits (`parser.py`, lines 40-41):
`max_file_size_bytes = max_file_size_mb * 1024 * 1024`. -/
structure DoclingLimits where
  max_pages : Nat
  max_file_size_bytes : Nat
deriving Repr, DecidableEq

/-- The `DoclingParser` limits at the `PDFParserSettings` defaults
(`src/config.py`: `max_pages = 30`, `max_file_size_mb = 20`). -/
def defaultDoclingLimits : DoclingLimits :=
  { max_pages := 30, max_file_size_bytes := 20 * 1024 * 1024 }

/-- The facts about a file on disk that `_validate_pdf` inspects:
whether `stat()` succeeds (the file exists), its byte size, whether its first
bytes start with `%PDF-`, and its page count. -/
structure PdfFileInfo where
  onDisk : Bool
  size : Nat
  headerIsPdf : Bool
  pages : Nat
deriving Repr, DecidableEq

/-- The distinct `PDFValidationError` raises of `_validate_pdf`
(`parser.py`, lines 55-95), identified by their site. -/
inductive PdfValidationError where
  /-- `stat()` raised (file missing): caught by the generic
  `except Exception` handler at lines 93-95 and re-raised as
  `PDFValidationError(f"Error validating PDF ...")`. -/
  | statFailed
  /-- `PDF file is empty` (line 59). -/
  | emptyFile
  /-- `PDF file too large` (lines 67-69). -/
  | tooLarge
  /-- `File does not have PDF header` (line 76). -/
  | badHeader
  /-- `PDF has too many pages` (line 87). -/
  | tooManyPages
deriving Repr, DecidableEq

/-- `_validate_pdf` (`parser.py`, lines 49-95). The checks run in the source
order: `stat()` (missing file), empty file, byte-size ceiling, `%PDF-` header,
page-count ceiling; each raise short-circuits the rest. -/
def validatePdf (lim : DoclingLimits) (f : PdfFileInfo) :
    Except PdfValidationError Bool :=
  if !f.onDisk then .error .statFailed
  else if f.size = 0 then .error .emptyFile
  else if lim.max_file_size_bytes < f.size then .error .tooLarge
  else if !f.headerIsPdf then .error .badHeader
  else if lim.max_pages < f.pages then .error .tooManyPages
  else .ok true

/-- Modelled from the spec: the spec's stated check order for `parse`
(section 4.3: "missing, empty, exceeds a configured byte-size ceiling,
exceeds a configured page-count ceiling, or fails a magic-byte signature
check — checked in that order"). Written from the spec's words, for
comparison with `validatePdf`, which follows the source. -/
def validatePdfSpecOrder (lim : DoclingLimits) (f : PdfFileInfo) :
    Except PdfValidationError Bool :=
  if !f.onDisk then .error .statFailed
  else if f.size = 0 then .error .emptyFile
  else if lim.max_file_size_bytes < f.size then .error .tooLarge
  else if lim.max_pages < f.pages then .error .tooManyPages
  else if !f.headerIsPdf then .error .badHeader
  else .ok true

/-- Modelled from the spec: the `parse` wrapper of the parser service
(spec section 4.3 — validation runs before the opaque extraction engine;
the wrapper method itself is not among the source files, only `_validate_pdf`
is). Returns the outcome together with whether the engine was invoked. -/
def parsePdfChecked (lim : DoclingLimits) (f : PdfFileInfo)
    (engine : PdfFileInfo → Option PdfContent) :
    Except PdfValidationError (Option PdfContent) × Bool :=
  match validatePdf lim f with
  | .error e => (.error e, false)
  | .ok _ => (.ok (engine f), true)

/-! ## Semaphore discipline of `_process_pdfs_batch`

An operational model of the per-item pipelines of `_process_pdfs_batch`
(`metadata_fetcher.py`, lines 136-144 and 198-252). Each item's coroutine is
a small state machine; the two `asyncio.Semaphore`s are counters. A state
transition fires for one task at a time (cooperative single-threaded
scheduling); acquisition requires a positive counter and decrements it,
release increments it. -/

/-- Phase of one item's `_download_and_parse_pipeline` coroutine. -/
inductive TaskPhase where
  /-- Not yet entered `async with download_semaphore`. -/
  | pending
  /-- Holds a download slot, awaiting `download_pdf`. -/
  | downloading
  /-- Download done, download slot released, before
  `async with parse_semaphore`. -/
  | parseWaiting
  /-- Holds a parse slot, awaiting `parse_pdf`. -/
  | parsing
  /-- Returned normally. -/
  | finished
  /-- Terminated by failure or exception (all slots released). -/
  | failed
deriving Repr, DecidableEq

/-- Global state of a batch run: each task's phase plus the two semaphore
counters (`asyncio.Semaphore._value`). -/
structure SchedState where
  tasks : List TaskPhase
  dlAvail : Nat
  parseAvail : Nat
deriving Repr, DecidableEq

/-- The state in which `_process_pdfs_batch` starts its pipelines: every task
pending, both semaphores at their configured capacity. -/
def initialSched (numTasks dlCap parseCap : Nat) : SchedState :=
  { tasks := List.replicate numTasks .pending,
    dlAvail := dlCap, parseAvail := parseCap }

/-- One scheduler step of the batch run. -/
inductive SchedStep : SchedState → SchedState → Prop where
  /-- `async with download_semaphore` entered: requires a free download slot. -/
  | startDownload (s : SchedState) (i n : Nat)
      (ht : s.tasks.get? i = some .pending) (ha : s.dlAvail = n + 1) :
      SchedStep s ⟨s.tasks.set i .downloading, n, s.parseAvail⟩
  /-- `download_pdf` returned a path; the `async with` block exits,
  releasing the download slot. -/
  | downloadOk (s : SchedState) (i : Nat)
      (ht : s.tasks.get? i = some .downloading) :
      SchedStep s ⟨s.tasks.set i .parseWaiting, s.dlAvail + 1, s.parseAvail⟩
  /-- `download_pdf` returned `None` or raised: the block exits releasing the
  slot and the coroutine terminates. -/
  | downloadFail (s : SchedState) (i : Nat)
      (ht : s.tasks.get? i = some .downloading) :
      SchedStep s ⟨s.tasks.set i .failed, s.dlAvail + 1, s.parseAvail⟩
  /-- `async with parse_semaphore` entered: requires a free parse slot. -/
  | startParse (s : SchedState) (i n : Nat)
      (ht : s.tasks.get? i = some .parseWaiting) (ha : s.parseAvail = n + 1) :
      SchedStep s ⟨s.tasks.set i .parsing, s.dlAvail, n⟩
  /-- Parsing finished (successfully or with a caught soft failure); the
  block exits, releasing the parse slot. -/
  | parseDone (s : SchedState) (i : Nat)
      (ht : s.tasks.get? i = some .parsing) :
      SchedStep s ⟨s.tasks.set i .finished, s.dlAvail, s.parseAvail + 1⟩
  /-- Parsing raised; the block exits releasing the slot and the coroutine
  terminates with the exception. -/
  | parseFail (s : SchedState) (i : Nat)
      (ht : s.tasks.get? i = some .parsing) :
      SchedStep s ⟨s.tasks.set i .failed, s.dlAvail, s.parseAvail + 1⟩

/-- States reachable during a batch run. -/
def SchedReachable (numTasks dlCap parseCap : Nat) (s : SchedState) : Prop :=
  Relation.ReflTransGen SchedStep (initialSched numTasks dlCap parseCap) s

/-! ## Lemmas on the batch result-processing loop -/

/-- `True` on the pipeline results that the loop accounts into `downloaded`
or `download_failures` (a 2-tuple or a falsy value); raised exceptions and
truthy non-tuples go only to `errors`. -/
def PipelineResult.accounted : PipelineResult → Bool
  | .tuple2 _ _ => true
  | .falsy => true
  | _ => false

/-- The error string the loop appends for an item, when it appends one. -/
def gatherErrorMsg : ArxivPaper × PipelineResult → Option String
  | (p, .raised msg) => some ("Pipeline error for " ++ p.arxiv_id ++ ": " ++ msg)
  | (p, .nonTuple typeName) =>
      some ("Pipeline error for " ++ p.arxiv_id ++ ": Unexpected result type " ++
        typeName)
  | _ => none

/-- The `parsed_papers` entry the loop appends for an item, when it appends
one. -/
def parsedEntry : ArxivPaper × PipelineResult → Option (String × ParsedPaper)
  | (p, .tuple2 true (some pp)) => some (p.arxiv_id, pp)
  | _ => none

/-- The `download_failures` entry the loop appends for an item, when it
appends one. -/
def dlFailEntry : ArxivPaper × PipelineResult → Option String
  | (p, .tuple2 false _) => some p.arxiv_id
  | (p, .falsy) => some p.arxiv_id
  | _ => none

theorem foldl_processOne_downloaded_dlf (items : List (ArxivPaper × PipelineResult))
    (acc : BatchResults) :
    (items.foldl processOne acc).downloaded
      + (items.foldl processOne acc).download_failures.length
    = acc.downloaded + acc.download_failures.length
      + items.countP (fun x => x.2.accounted) := by
  induction items generalizing acc with
  | nil => simp
  | cons x xs ih =>
    rw [List.foldl_cons, ih, List.countP_cons]
    rcases x with ⟨p, r⟩
    cases r with
    | tuple2 ds pp =>
      cases ds with
      | true =>
        cases pp <;> simp [processOne, PipelineResult.accounted] <;> omega
      | false =>
        simp [processOne, PipelineResult.accounted]
        omega
    | raised msg => simp [processOne, PipelineResult.accounted]
    | nonTuple t => simp [processOne, PipelineResult.accounted]
    | falsy =>
      simp [processOne, PipelineResult.accounted]
      omega

theorem foldl_processOne_errors (items : List (ArxivPaper × PipelineResult))
    (acc : BatchResults) :
    (items.foldl processOne acc).errors
      = acc.errors ++ items.filterMap gatherErrorMsg := by
  induction items generalizing acc with
  | nil => simp
  | cons x xs ih =>
    rw [List.foldl_cons, ih, List.filterMap_cons]
    rcases x with ⟨p, r⟩
    cases r with
    | tuple2 ds pp =>
      cases ds <;> cases pp <;> simp [processOne, gatherErrorMsg]
    | raised msg => simp [processOne, gatherErrorMsg]
    | nonTuple t => simp [processOne, gatherErrorMsg]
    | falsy => simp [processOne, gatherErrorMsg]

theorem foldl_processOne_parsed_papers (items : List (ArxivPaper × PipelineResult))
    (acc : BatchResults) :
    (items.foldl processOne acc).parsed_papers
      = acc.parsed_papers ++ items.filterMap parsedEntry := by
  induction items generalizing acc with
  | nil => simp
  | cons x xs ih =>
    rw [List.foldl_cons, ih, List.filterMap_cons]
    rcases x with ⟨p, r⟩
    cases r with
    | tuple2 ds pp =>
      cases ds <;> cases pp <;> simp [processOne, parsedEntry]
    | raised msg => simp [processOne, parsedEntry]
    | nonTuple t => simp [processOne, parsedEntry]
    | falsy => simp [processOne, parsedEntry]

theorem foldl_processOne_download_failures (items : List (ArxivPaper × PipelineResult))
    (acc : BatchResults) :
    (items.foldl processOne acc).download_failures
      = acc.download_failures ++ items.filterMap dlFailEntry := by
  induction items generalizing acc with
  | nil => simp
  | cons x xs ih =>
    rw [List.foldl_cons, ih, List.filterMap_cons]
    rcases x with ⟨p, r⟩
    cases r with
    | tuple2 ds pp =>
      cases ds <;> cases pp <;> simp [processOne, dlFailEntry]
    | raised msg => simp [processOne, dlFailEntry]
    | nonTuple t => simp [processOne, dlFailEntry]
    | falsy => simp [processOne, dlFailEntry]

/-- A concrete paper used in counterexamples. -/
def cexPaper : ArxivPaper :=
  { arxiv_id := "1234.5678", title := "T", authors := [], abstract := "A",
    categories := [], pdf_url := "https://arxiv.org/pdf/1234.5678" }

/-- C1, counterexample: for the 1-element batch whose single item's pipeline
terminated with a raised exception (captured by
`gather(..., return_exceptions=True)`), the report of `_process_pdfs_batch`
has `downloaded + len(download_failures) = 0 ≠ 1 = N`: the item is recorded
only in `errors`, so the claimed equality fails. -/
theorem batch_accounting_counterexample :
    (processPdfsBatch [(cexPaper, .raised "boom")]).downloaded
      + (processPdfsBatch [(cexPaper, .raised "boom")]).download_failures.length
    ≠ [((cexPaper : ArxivPaper), PipelineResult.raised "boom")].length := by
  decide

/-- C1, amended: for every batch of N records,
`downloaded + len(download_failures)` plus the number of items whose pipeline
terminated with a raised exception or an unexpected non-tuple result (which
are recorded only in `errors`) equals N; the claimed equality
`downloaded + len(download_failures) = N` therefore holds exactly when no
item's pipeline raised. -/
theorem batch_accounting (items : List (ArxivPaper × PipelineResult)) :
    (processPdfsBatch items).downloaded
      + (processPdfsBatch items).download_failures.length
      + items.countP (fun x => !x.2.accounted)
    = items.length := by
  have hsplit : items.countP (fun x => x.2.accounted)
      + items.countP (fun x => !x.2.accounted) = items.length := by
    induction items with
    | nil => simp
    | cons x xs ih =>
      rw [List.countP_cons, List.countP_cons]
      cases hx : x.2.accounted <;> simp [hx] <;> omega
  have h := foldl_processOne_downloaded_dlf items initialBatchResults
  have hdl : (processPdfsBatch items).downloaded
      = (items.foldl processOne initialBatchResults).downloaded := rfl
  have hdf : (processPdfsBatch items).download_failures
      = (items.foldl processOne initialBatchResults).download_failures := rfl
  have h0 : initialBatchResults.downloaded = 0 := rfl
  have h1 : initialBatchResults.download_failures.length = 0 := rfl
  rw [h0, h1] at h
  rw [hdl, hdf]
  omega

/-- C7: in every batch whose records have pairwise-distinct identifiers,
an identifier keyed in `parsed_papers` never appears in `download_failures`:
parse success implies download success. -/
theorem parsed_implies_downloaded (items : List (ArxivPaper × PipelineResult))
    (hnodup : (items.map (fun x => x.1.arxiv_id)).Nodup)
    (id : String) (pp : ParsedPaper)
    (hmem : (id, pp) ∈ (processPdfsBatch items).parsed_papers) :
    id ∉ (processPdfsBatch items).download_failures := by
  intro hfail
  simp only [processPdfsBatch, foldl_processOne_parsed_papers,
    foldl_processOne_download_failures, initialBatchResults,
    List.nil_append] at hmem hfail
  rcases List.mem_filterMap.mp hmem with ⟨x, hx, hxe⟩
  rcases List.mem_filterMap.mp hfail with ⟨y, hy, hye⟩
  have hxid : x.1.arxiv_id = id ∧ ∃ q, x.2 = .tuple2 true (some q) := by
    rcases x with ⟨p, r⟩
    cases r with
    | tuple2 ds q =>
      cases ds with
      | true =>
        cases q with
        | some q =>
          simp [parsedEntry] at hxe
          exact ⟨hxe.1, q, by rw [hxe.2]⟩
        | none => simp [parsedEntry] at hxe
      | false => simp [parsedEntry] at hxe
    | raised m => simp [parsedEntry] at hxe
    | nonTuple t => simp [parsedEntry] at hxe
    | falsy => simp [parsedEntry] at hxe
  have hyid : y.1.arxiv_id = id ∧
      ((∃ q, y.2 = .tuple2 false q) ∨ y.2 = .falsy) := by
    rcases y with ⟨p, r⟩
    cases r with
    | tuple2 ds q =>
      cases ds with
      | true => simp [dlFailEntry] at hye
      | false =>
        simp [dlFailEntry] at hye
        exact ⟨hye, Or.inl ⟨q, rfl⟩⟩
    | raised m => simp [dlFailEntry] at hye
    | nonTuple t => simp [dlFailEntry] at hye
    | falsy =>
      simp [dlFailEntry] at hye
      exact ⟨hye, Or.inr rfl⟩
  have hxy : x = y := by
    apply List.inj_on_of_nodup_map hnodup hx hy
    rw [hxid.1, hyid.1]
  rcases hxid.2 with ⟨q, hq⟩
  rcases hyid.2 with hcase | hcase
  · rcases hcase with ⟨q', hq'⟩
    rw [hxy, hq'] at hq
    simp at hq
  · rw [hxy, hcase] at hq
    simp at hq

/-- A second concrete paper, with an identifier distinct from `cexPaper`. -/
def cexPaperB : ArxivPaper :=
  { arxiv_id := "2345.6789", title := "U", authors := [], abstract := "B",
    categories := [], pdf_url := "https://arxiv.org/pdf/2345.6789" }

/-- A concrete parsed paper for `cexPaper`. -/
def cexParsedPaper : ParsedPaper :=
  { arxiv_metadata :=
      { title := "T", authors := [], abstract := "A",
        arxiv_id := "1234.5678", categories := [],
        pdf_url := "https://arxiv.org/pdf/1234.5678" },
    pdf_content := { sections := [], raw_text := "text" } }

/-- C7, witness: in a concrete 2-record batch with distinct identifiers in
which the first record parsed and the second failed to download, the parsed
identifier is absent from `download_failures`. -/
theorem parsed_implies_downloaded_witness :
    ("1234.5678" : String) ∉
      (processPdfsBatch
        [(cexPaper, .tuple2 true (some cexParsedPaper)),
         (cexPaperB, .tuple2 false none)]).download_failures :=
  parsed_implies_downloaded
    [(cexPaper, .tuple2 true (some cexParsedPaper)),
     (cexPaperB, .tuple2 false none)]
    (by decide) "1234.5678" cexParsedPaper (by decide)

/-- C2: `fetch_and_process_papers` raises exactly when the single upfront
metadata fetch raises (and then with `PipelineException`); when the fetch
succeeds it always returns a report — even if every item failed — and every
exception raised inside an individual item's pipeline is caught, stringified
and appended to the report's error list, never propagated. -/
theorem batch_call_error_policy (max_results : Option Nat)
    (fetch : Nat → Except String (List ArxivPaper))
    (pipelineOf : ArxivPaper → PipelineResult) :
    ((∃ r, fetchAndProcessPapers max_results fetch pipelineOf = .ok r)
        ↔ ∃ ps, fetch 5 = .ok ps) ∧
    (∀ e, fetch 5 = .error e →
      fetchAndProcessPapers max_results fetch pipelineOf
        = .error ("Pipeline execution failed: " ++ e)) ∧
    (∀ ps p msg, fetch 5 = .ok ps → p ∈ ps → pipelineOf p = .raised msg →
      ∃ r, fetchAndProcessPapers max_results fetch pipelineOf = .ok r ∧
        ("Pipeline error for " ++ p.arxiv_id ++ ": " ++ msg) ∈ r.errors) := by
  refine ⟨?_, ?_, ?_⟩
  · constructor
    · rintro ⟨r, hr⟩
      cases hfetch : fetch 5 with
      | error e => simp [fetchAndProcessPapers, hfetch] at hr
      | ok ps => exact ⟨ps, rfl⟩
    · rintro ⟨ps, hps⟩
      unfold fetchAndProcessPapers
      rw [hps]
      by_cases hemp : ps.isEmpty <;> simp [hemp]
  · intro e he
    simp [fetchAndProcessPapers, he]
  · intro ps p msg hps hp hraised
    have hemp : ps.isEmpty = false := by
      cases ps with
      | nil => cases hp
      | cons a l => rfl
    refine ⟨{ papers_fetched := ps.length,
              pdfs_downloaded :=
                (processPdfsBatch (ps.map (fun q => (q, pipelineOf q)))).downloaded,
              pdfs_parsed :=
                (processPdfsBatch (ps.map (fun q => (q, pipelineOf q)))).parsed,
              papers_stored := 0, papers_indexed := 0,
              errors :=
                (processPdfsBatch (ps.map (fun q => (q, pipelineOf q)))).errors,
              processing_time := 0 }, ?_, ?_⟩
    · unfold fetchAndProcessPapers
      rw [hps]
      simp [hemp]
    · show _ ∈ (processPdfsBatch (ps.map (fun q => (q, pipelineOf q)))).errors
      simp only [processPdfsBatch, foldl_processOne_errors, initialBatchResults,
        List.nil_append]
      refine List.mem_append.mpr (Or.inl (List.mem_append.mpr (Or.inl ?_)))
      refine List.mem_filterMap.mpr
        ⟨(p, pipelineOf p), List.mem_map_of_mem _ hp, ?_⟩
      rw [hraised]
      rfl

/-- C2, witness: at a concrete fetch that succeeds with one paper whose
pipeline raised, the batch call returns a report whose error list contains
the stringified exception; at a concrete failing fetch it raises. -/
theorem batch_call_error_policy_witness :
    (∃ r, fetchAndProcessPapers (some 7) (fun _ => .ok [cexPaper])
        (fun _ => .raised "boom") = .ok r ∧
      ("Pipeline error for " ++ cexPaper.arxiv_id ++ ": " ++ "boom") ∈ r.errors) ∧
    fetchAndProcessPapers (some 7) (fun _ => .error "offline")
        (fun _ => .raised "boom")
      = .error ("Pipeline execution failed: " ++ "offline") := by
  constructor
  · exact (batch_call_error_policy (some 7) (fun _ => .ok [cexPaper])
      (fun _ => .raised "boom")).2.2 [cexPaper] cexPaper "boom" rfl
      (List.mem_singleton.mpr rfl) rfl
  · exact (batch_call_error_policy (some 7) (fun _ => .error "offline")
      (fun _ => .raised "boom")).2.1 "offline" rfl

/-- C10: the metadata fetch issued by `fetch_and_process_papers` requests
exactly 5 papers whatever `max_results` argument is passed: the result is
unchanged under replacing `max_results` by any other value, and under
replacing the fetch oracle by any oracle that agrees on the request `5`. -/
theorem fetch_ignores_max_results (mr mr' : Option Nat)
    (fetch fetch' : Nat → Except String (List ArxivPaper))
    (pipelineOf : ArxivPaper → PipelineResult)
    (hagree : fetch 5 = fetch' 5) :
    fetchAndProcessPapers mr fetch pipelineOf
      = fetchAndProcessPapers mr' fetch' pipelineOf := by
  unfold fetchAndProcessPapers
  rw [hagree]

/-- C10, witness: `max_results = none` and `max_results = some 100` with
fetch oracles that disagree everywhere except at 5 give identical results. -/
theorem fetch_ignores_max_results_witness :
    fetchAndProcessPapers none
        (fun n => if n = 5 then .ok [cexPaper] else .error "other")
        (fun _ => .tuple2 true none)
      = fetchAndProcessPapers (some 100)
        (fun _ => .ok [cexPaper])
        (fun _ => .tuple2 true none) :=
  fetch_ignores_max_results none (some 100) _ _ _ rfl

/-! ## Lemmas on the retry loop -/

/-- The event trace of `k` failed attempts starting at index `a` followed by
one successful attempt, with linear backoff base `b`: the wait inserted after
the failed attempt `a + j` (before retry `j + 1`) is `b * (a + j + 1)`. -/
def attemptTrace (b : Rat) : (a k : Nat) → List DlEvent
  | a, 0 => [.networkAttempt a]
  | a, k + 1 =>
      .networkAttempt a :: .backoffWait (b * ((a : Rat) + 1)) ::
        attemptTrace b (a + 1) k

theorem retryLoop_eventually_succeeds (cfg : ArxivCfg)
    (outcomes : Nat → AttemptOutcome) :
    ∀ (k a r : Nat) (fe : Bool), k < r →
    (∀ j, j < k → (outcomes (a + j)).retriable = true) →
    outcomes (a + k) = .success →
    retryLoop cfg outcomes a r fe
      = (attemptTrace cfg.download_retry_delay_base a k, .ok, true) := by
  intro k
  induction k with
  | zero =>
    intro a r fe hr _ hsucc
    cases r with
    | zero => omega
    | succ r' =>
      rw [Nat.add_zero] at hsucc
      simp [retryLoop, hsucc, attemptTrace]
  | succ k ih =>
    intro a r fe hr hfail hsucc
    cases r with
    | zero => omega
    | succ r' =>
      have hr' : k < r' := by omega
      have hrem : 1 ≤ r' := by omega
      have hfail' : ∀ j, j < k → (outcomes (a + 1 + j)).retriable = true := by
        intro j hj
        have := hfail (j + 1) (by omega)
        rwa [show a + (j + 1) = a + 1 + j by omega] at this
      have hsucc' : outcomes (a + 1 + k) = .success := by
        rwa [show a + (k + 1) = a + 1 + k by omega] at hsucc
      have h0 := hfail 0 (by omega)
      rw [Nat.add_zero] at h0
      have hrest := ih (a + 1) r' (fe || (outcomes a).leavesBytes) hr' hfail' hsucc'
      cases hout : outcomes a with
      | success => rw [hout] at h0; simp [AttemptOutcome.retriable] at h0
      | otherError w => rw [hout] at h0; simp [AttemptOutcome.retriable] at h0
      | timeout w =>
        rw [hout] at hrest
        simp only [AttemptOutcome.leavesBytes] at hrest
        simp [retryLoop, hout, hrem, hrest, attemptTrace]
      | httpError w =>
        rw [hout] at hrest
        simp only [AttemptOutcome.leavesBytes] at hrest
        simp [retryLoop, hout, hrem, hrest, attemptTrace]

theorem attemptTrace_count_network (b : Rat) :
    ∀ (a k : Nat),
    (attemptTrace b a k).countP DlEvent.isNetworkAttempt = k + 1 := by
  intro a k
  induction k generalizing a with
  | zero => simp [attemptTrace, DlEvent.isNetworkAttempt, List.countP_cons]
  | succ k ih =>
    simp [attemptTrace, List.countP_cons, DlEvent.isNetworkAttempt, ih]

theorem attemptTrace_backoffWaits (b : Rat) :
    ∀ (a k : Nat),
    backoffWaits (attemptTrace b a k)
      = (List.range k).map (fun (j : Nat) => b * ((a : Rat) + (j : Rat) + 1)) := by
  intro a k
  induction k generalizing a with
  | zero => simp [attemptTrace, backoffWaits]
  | succ k ih =>
    simp only [attemptTrace, backoffWaits, ih, List.range_succ_eq_map,
      List.map_cons, List.map_map]
    congr 1
    · push_cast
      ring
    · apply List.map_congr_left
      intro j _
      simp only [Function.comp_apply]
      push_cast
      ring

theorem attemptTrace_no_rateLimit (b : Rat) :
    ∀ (a k : Nat),
    (attemptTrace b a k).countP DlEvent.isRateLimitWait = 0 := by
  intro a k
  induction k generalizing a with
  | zero => simp [attemptTrace, DlEvent.isRateLimitWait, List.countP_cons]
  | succ k ih =>
    simp [attemptTrace, List.countP_cons, DlEvent.isRateLimitWait, ih]

/-- C3: a download whose attempts fail retriably `k` times and succeed on
attempt `k + 1`, with `k < max_retries`, makes exactly `k + 1` network
attempts; the wait before the `j`-th retry is `base * j` seconds
(`j = 1` for the first retry), and the total backoff wait equals (hence is
at least) `base * (1 + 2 + ... + k)`. -/
theorem download_retry_backoff (cfg : ArxivCfg)
    (outcomes : Nat → AttemptOutcome) (fe : Bool) (k : Nat)
    (hk : k < cfg.download_max_retries)
    (hfail : ∀ j, j < k → (outcomes j).retriable = true)
    (hsucc : outcomes k = .success) :
    (downloadWithRetry cfg outcomes fe).2.1 = .ok ∧
    (downloadWithRetry cfg outcomes fe).1.countP DlEvent.isNetworkAttempt
      = k + 1 ∧
    backoffWaits (downloadWithRetry cfg outcomes fe).1
      = (List.range k).map
          (fun (j : Nat) => cfg.download_retry_delay_base * ((j : Rat) + 1)) ∧
    (backoffWaits (downloadWithRetry cfg outcomes fe).1).sum
      = cfg.download_retry_delay_base
          * ((List.range k).map (fun (j : Nat) => (j : Rat) + 1)).sum := by
  have hloop := retryLoop_eventually_succeeds cfg outcomes k 0 cfg.download_max_retries
    fe hk (by intro j hj; simpa using hfail j hj) (by simpa using hsucc)
  have htr : (downloadWithRetry cfg outcomes fe).1
      = .rateLimitWait cfg.rate_limit_delay ::
          attemptTrace cfg.download_retry_delay_base 0 k := by
    simp [downloadWithRetry, hloop]
  have hterm : (downloadWithRetry cfg outcomes fe).2.1 = .ok := by
    simp [downloadWithRetry, hloop]
  have hwaits : backoffWaits (downloadWithRetry cfg outcomes fe).1
      = (List.range k).map
          (fun (j : Nat) => cfg.download_retry_delay_base * ((j : Rat) + 1)) := by
    rw [htr]
    show backoffWaits (attemptTrace cfg.download_retry_delay_base 0 k) = _
    rw [attemptTrace_backoffWaits]
    apply List.map_congr_left
    intro j _
    push_cast
    ring
  refine ⟨hterm, ?_, hwaits, ?_⟩
  · rw [htr]
    simp [List.countP_cons, DlEvent.isNetworkAttempt,
      attemptTrace_count_network]
  · rw [hwaits]
    generalize List.range k = l
    induction l with
    | nil => simp
    | cons x xs ih =>
      simp only [List.map_cons, List.sum_cons, ih]
      ring

/-- C6, total-failure evaluation: at the default settings, with every attempt
failing with an HTTP error that leaves partial bytes at the target path,
`_download_with_retry` terminates by raising `PDFDownloadException` with the
partial file still present — the cleanup at `arxiv_client.py` lines 342-344
is only reachable when the attempt loop body never runs, so a total failure
leaves the partial artifact in the cache. -/
theorem download_total_failure_leaves_partial_file :
    (downloadWithRetry defaultArxivCfg (fun _ => .httpError true) false).2
      = (DlTermination.raisedDownloadFailed, true) ∧
    DlTermination.raises DlTermination.raisedDownloadFailed = true := by
  constructor
  · rfl
  · rfl

/-- Concrete attempt outcomes: two retriable timeouts, then success. -/
def twoTimeoutsThenSuccess (j : Nat) : AttemptOutcome :=
  if j < 2 then .timeout false else .success

/-- C3, witness: at the default settings (`max_retries = 3`, `base = 5`),
two timeouts followed by success give 3 network attempts, backoff waits
`[5, 10]`, and total backoff `5 * (1 + 2)`. -/
theorem download_retry_backoff_witness :
    (downloadWithRetry defaultArxivCfg twoTimeoutsThenSuccess false).2.1
      = .ok ∧
    (downloadWithRetry defaultArxivCfg twoTimeoutsThenSuccess
        false).1.countP DlEvent.isNetworkAttempt = 2 + 1 ∧
    backoffWaits (downloadWithRetry defaultArxivCfg twoTimeoutsThenSuccess
        false).1
      = (List.range 2).map
          (fun (j : Nat) =>
            defaultArxivCfg.download_retry_delay_base * ((j : Rat) + 1)) ∧
    (backoffWaits (downloadWithRetry defaultArxivCfg twoTimeoutsThenSuccess
        false).1).sum
      = defaultArxivCfg.download_retry_delay_base
          * ((List.range 2).map (fun (j : Nat) => (j : Rat) + 1)).sum :=
  download_retry_backoff defaultArxivCfg twoTimeoutsThenSuccess false 2
    (by decide) (by decide) (by decide)

/-- C4: download idempotence. If the paper has a PDF URL, its cache path is
absent, retries are enabled, and the first network attempt succeeds, then the
first `download_pdf` call returns the cache path after exactly one network
attempt; any call when the path is cached (and `force_download` is false)
returns that path immediately with an empty event trace — no rate-limit wait
and no network call; in particular the second of two consecutive calls for
the same identifier performs zero additional network fetches and returns the
same path. -/
theorem download_pdf_idempotent (cfg : ArxivCfg)
    (outcomes outcomes' : Nat → AttemptOutcome) (cache : List String)
    (paper : ArxivPaper)
    (hurl : paper.pdf_url ≠ "")
    (hmiss : cache.contains (getPdfPath paper.arxiv_id) = false)
    (hretries : 0 < cfg.download_max_retries)
    (hfirst : outcomes 0 = .success) :
    downloadPdf cfg outcomes cache paper false
      = (.returned (some (getPdfPath paper.arxiv_id)),
         cache ++ [getPdfPath paper.arxiv_id],
         [.rateLimitWait cfg.rate_limit_delay, .networkAttempt 0]) ∧
    (downloadPdf cfg outcomes cache paper false).2.2.countP
        DlEvent.isNetworkAttempt = 1 ∧
    (∀ c' : List String, c'.contains (getPdfPath paper.arxiv_id) = true →
      downloadPdf cfg outcomes' c' paper false
        = (.returned (some (getPdfPath paper.arxiv_id)), c', [])) ∧
    downloadPdf cfg outcomes'
        (downloadPdf cfg outcomes cache paper false).2.1 paper false
      = (.returned (some (getPdfPath paper.arxiv_id)),
         (downloadPdf cfg outcomes cache paper false).2.1, []) := by
  have hcached : ∀ c' : List String,
      c'.contains (getPdfPath paper.arxiv_id) = true →
      downloadPdf cfg outcomes' c' paper false
        = (.returned (some (getPdfPath paper.arxiv_id)), c', []) := by
    intro c' hc'
    have hmem : getPdfPath paper.arxiv_id ∈ c' := by simpa using hc'
    simp [downloadPdf, hurl, hmem]
  have hnot : getPdfPath paper.arxiv_id ∉ cache := by simpa using hmiss
  have hfirstCall : downloadPdf cfg outcomes cache paper false
      = (.returned (some (getPdfPath paper.arxiv_id)),
         cache ++ [getPdfPath paper.arxiv_id],
         [.rateLimitWait cfg.rate_limit_delay, .networkAttempt 0]) := by
    cases hr : cfg.download_max_retries with
    | zero => omega
    | succ r' =>
      simp [downloadPdf, hurl, hnot, downloadWithRetry, hr, retryLoop, hfirst]
  refine ⟨hfirstCall, ?_, hcached, ?_⟩
  · rw [hfirstCall]
    simp [List.countP_cons, DlEvent.isNetworkAttempt]
  · rw [hfirstCall]
    exact hcached (cache ++ [getPdfPath paper.arxiv_id]) (by simp)

/-- C4, witness: at concrete inputs, the second call for the same identifier
returns the same path from the cache with an empty event trace, even with a
network oracle that would fail every attempt. -/
theorem download_pdf_idempotent_witness :
    downloadPdf defaultArxivCfg (fun _ => .httpError true)
        (downloadPdf defaultArxivCfg (fun _ => .success) [] cexPaper
          false).2.1 cexPaper false
      = (.returned (some (getPdfPath cexPaper.arxiv_id)),
         (downloadPdf defaultArxivCfg (fun _ => .success) [] cexPaper
           false).2.1, []) :=
  (download_pdf_idempotent defaultArxivCfg (fun _ => .success)
    (fun _ => .httpError true) [] cexPaper (by decide) rfl (by decide)
    rfl).2.2.2

theorem retryLoop_no_rateLimit (cfg : ArxivCfg)
    (outcomes : Nat → AttemptOutcome) :
    ∀ (r a : Nat) (fe : Bool),
    (retryLoop cfg outcomes a r fe).1.countP DlEvent.isRateLimitWait = 0 := by
  intro r
  induction r with
  | zero => intro a fe; simp [retryLoop]
  | succ r' ih =>
    intro a fe
    cases hout : outcomes a with
    | success => simp [retryLoop, hout, DlEvent.isRateLimitWait]
    | timeout w =>
      by_cases hrem : 1 ≤ r' <;>
        simp [retryLoop, hout, hrem, List.countP_cons,
          DlEvent.isRateLimitWait, ih]
    | httpError w =>
      by_cases hrem : 1 ≤ r' <;>
        simp [retryLoop, hout, hrem, List.countP_cons,
          DlEvent.isRateLimitWait, ih]
    | otherError w => simp [retryLoop, hout, DlEvent.isRateLimitWait]

/-- C8: the event trace of every `download_pdf` invocation is either empty
(no network call is issued at all: missing URL or cache hit) or starts with
the single rate-limit wait followed by a tail with no further rate-limit
waits, so every network attempt is issued after the one wait; and inside
`_download_with_retry` the rate-limit delay is slept exactly once per
download attempt sequence — as the first event, never once per retry
attempt. -/
theorem download_rate_limit_once (cfg : ArxivCfg)
    (outcomes : Nat → AttemptOutcome) (cache : List String)
    (paper : ArxivPaper) (force_download : Bool) (fe : Bool) :
    ((downloadPdf cfg outcomes cache paper force_download).2.2 = [] ∨
      ∃ rest, (downloadPdf cfg outcomes cache paper force_download).2.2
          = .rateLimitWait cfg.rate_limit_delay :: rest ∧
        rest.countP DlEvent.isRateLimitWait = 0) ∧
    (downloadWithRetry cfg outcomes fe).1.countP DlEvent.isRateLimitWait
      = 1 ∧
    ∃ rest, (downloadWithRetry cfg outcomes fe).1
        = .rateLimitWait cfg.rate_limit_delay :: rest ∧
      rest.countP DlEvent.isRateLimitWait = 0 := by
  have hretry : ∀ fe' : Bool,
      ∃ rest, (downloadWithRetry cfg outcomes fe').1
          = .rateLimitWait cfg.rate_limit_delay :: rest ∧
        rest.countP DlEvent.isRateLimitWait = 0 := by
    intro fe'
    exact ⟨(retryLoop cfg outcomes 0 cfg.download_max_retries fe').1, rfl,
      retryLoop_no_rateLimit cfg outcomes _ 0 fe'⟩
  refine ⟨?_, ?_, hretry fe⟩
  · by_cases hurl : paper.pdf_url = ""
    · left
      simp [downloadPdf, hurl]
    · by_cases hhit : (cache.contains (getPdfPath paper.arxiv_id)
          && !force_download) = true
      · left
        simp only [downloadPdf, if_neg hurl, hhit, if_true]
      · right
        have hhit' : (cache.contains (getPdfPath paper.arxiv_id)
            && !force_download) = false := by
          simpa using hhit
        have := hretry (cache.contains (getPdfPath paper.arxiv_id))
        have htrace : (downloadPdf cfg outcomes cache paper
            force_download).2.2
            = (downloadWithRetry cfg outcomes
                (cache.contains (getPdfPath paper.arxiv_id))).1 := by
          simp only [downloadPdf, if_neg hurl, hhit', Bool.false_eq_true,
            if_false]
          cases (downloadWithRetry cfg outcomes
              (cache.contains (getPdfPath paper.arxiv_id))).2.1 <;> rfl
        rw [htrace]
        exact this
  · rcases hretry fe with ⟨rest, hrest, hcount⟩
    rw [hrest]
    simp [List.countP_cons, DlEvent.isRateLimitWait, hcount]

/-! ## The parse-semaphore bound -/

/-- Number of tasks currently inside the `parse_semaphore` block. -/
def parseCount (s : SchedState) : Nat :=
  s.tasks.countP (fun t => t == .parsing)

theorem countP_set_eq (p : TaskPhase → Bool) :
    ∀ (l : List TaskPhase) (i : Nat) (v w : TaskPhase),
    l.get? i = some w →
    (l.set i v).countP p + (if p w then 1 else 0)
      = l.countP p + (if p v then 1 else 0) := by
  intro l
  induction l with
  | nil => intro i v w h; cases h
  | cons x xs ih =>
    intro i v w h
    cases i with
    | zero =>
      simp only [List.get?] at h
      injection h with h
      subst h
      simp only [List.set, List.countP_cons]
      cases hw : p x <;> cases hv : p v <;> simp [hw, hv] <;> omega
    | succ i' =>
      simp only [List.get?] at h
      have := ih i' v w h
      simp only [List.set, List.countP_cons]
      cases hx : p x <;> simp [hx] <;> omega

theorem schedStep_parse_invariant {s s' : SchedState} (h : SchedStep s s')
    {c : Nat} (hinv : s.parseAvail + parseCount s = c) :
    s'.parseAvail + parseCount s' = c := by
  cases h with
  | startDownload i n ht ha =>
    have hc := countP_set_eq (fun t => t == TaskPhase.parsing) s.tasks i
      .downloading .pending ht
    simp only [parseCount] at hinv ⊢
    simp at hc
    omega
  | downloadOk i ht =>
    have hc := countP_set_eq (fun t => t == TaskPhase.parsing) s.tasks i
      .parseWaiting .downloading ht
    simp only [parseCount] at hinv ⊢
    simp at hc
    omega
  | downloadFail i ht =>
    have hc := countP_set_eq (fun t => t == TaskPhase.parsing) s.tasks i
      .failed .downloading ht
    simp only [parseCount] at hinv ⊢
    simp at hc
    omega
  | startParse i n ht ha =>
    have hc := countP_set_eq (fun t => t == TaskPhase.parsing) s.tasks i
      .parsing .parseWaiting ht
    simp only [parseCount] at hinv ⊢
    simp at hc
    omega
  | parseDone i ht =>
    have hc := countP_set_eq (fun t => t == TaskPhase.parsing) s.tasks i
      .finished .parsing ht
    simp only [parseCount] at hinv ⊢
    simp at hc
    omega
  | parseFail i ht =>
    have hc := countP_set_eq (fun t => t == TaskPhase.parsing) s.tasks i
      .failed .parsing ht
    simp only [parseCount] at hinv ⊢
    simp at hc
    omega

theorem schedReachable_parse_invariant {numTasks dlCap parseCap : Nat}
    {s : SchedState} (h : SchedReachable numTasks dlCap parseCap s) :
    s.parseAvail + parseCount s = parseCap := by
  induction h with
  | refl =>
    simp only [initialSched, parseCount]
    have : (List.replicate numTasks TaskPhase.pending).countP
        (fun t => t == TaskPhase.parsing) = 0 := by
      induction numTasks with
      | zero => rfl
      | succ n ih => simp only [List.replicate, List.countP_cons]; simp [ih]
    omega
  | tail _ hstep ih => exact schedStep_parse_invariant hstep ih

theorem two_le_countP_of_get (p : TaskPhase → Bool) :
    ∀ (l : List TaskPhase) (i j : Nat), i < j →
    (∃ a, l.get? i = some a ∧ p a) → (∃ b, l.get? j = some b ∧ p b) →
    2 ≤ l.countP p := by
  intro l
  induction l with
  | nil =>
    intro i j _ hi _
    rcases hi with ⟨a, ha, _⟩
    cases ha
  | cons x xs ih =>
    intro i j hij hi hj
    cases j with
    | zero => omega
    | succ j' =>
      rcases hj with ⟨b, hb, hpb⟩
      simp only [List.get?] at hb
      rw [List.countP_cons]
      cases i with
      | zero =>
        rcases hi with ⟨a, ha, hpa⟩
        simp only [List.get?] at ha
        injection ha with ha
        subst ha
        have hmem : b ∈ xs := List.get?_mem hb
        have : 0 < xs.countP p := List.countP_pos_iff.mpr ⟨b, hmem, hpb⟩
        simp only [hpa, if_true]
        omega
      | succ i' =>
        have := ih i' j' (by omega) (by
          rcases hi with ⟨a, ha, hpa⟩
          simp only [List.get?] at ha
          exact ⟨a, ha, hpa⟩) ⟨b, hb, hpb⟩
        cases hx : p x
        · simp only [hx, Bool.false_eq_true, if_false]
          omega
        · simp only [hx, if_true]
          omega

/-- C9: with `max_concurrent_parsing = 1`, in every state reachable during a
batch run — for every number of records and every
`max_concurrent_downloads` — no two item pipelines are inside the
parse-semaphore block simultaneously. -/
theorem parse_mutual_exclusion (numTasks dlCap : Nat) (s : SchedState)
    (h : SchedReachable numTasks dlCap 1 s) (i j : Nat) (hij : i ≠ j) :
    ¬(s.tasks.get? i = some .parsing ∧ s.tasks.get? j = some .parsing) := by
  rintro ⟨hi, hj⟩
  have hinv := schedReachable_parse_invariant h
  have h2 : 2 ≤ s.tasks.countP (fun t => t == TaskPhase.parsing) := by
    rcases Nat.lt_or_ge i j with hlt | hge
    · exact two_le_countP_of_get _ s.tasks i j hlt
        ⟨.parsing, hi, rfl⟩ ⟨.parsing, hj, rfl⟩
    · have hlt : j < i := by omega
      exact two_le_countP_of_get _ s.tasks j i hlt
        ⟨.parsing, hj, rfl⟩ ⟨.parsing, hi, rfl⟩
  simp only [parseCount] at hinv
  omega

/-- C9, witness: in the state of a 3-record batch run
(`max_concurrent_downloads = 5`) reached after task 0 acquires a download
slot, finishes its download, and acquires the single parse slot, task 1 is
not parsing alongside task 0. -/
theorem parse_mutual_exclusion_witness :
    ¬((⟨[.parsing, .pending, .pending], 5, 0⟩ : SchedState).tasks.get? 0
        = some .parsing ∧
      (⟨[.parsing, .pending, .pending], 5, 0⟩ : SchedState).tasks.get? 1
        = some .parsing) := by
  have h1 : SchedStep (initialSched 3 5 1)
      ⟨[.downloading, .pending, .pending], 4, 1⟩ :=
    SchedStep.startDownload (initialSched 3 5 1) 0 4 rfl rfl
  have h2 : SchedStep (⟨[.downloading, .pending, .pending], 4, 1⟩ : SchedState)
      ⟨[.parseWaiting, .pending, .pending], 5, 1⟩ :=
    SchedStep.downloadOk ⟨[.downloading, .pending, .pending], 4, 1⟩ 0 rfl
  have h3 : SchedStep (⟨[.parseWaiting, .pending, .pending], 5, 1⟩ : SchedState)
      ⟨[.parsing, .pending, .pending], 5, 0⟩ :=
    SchedStep.startParse ⟨[.parseWaiting, .pending, .pending], 5, 1⟩ 0 0 rfl rfl
  have hreach : SchedReachable 3 5 1 ⟨[.parsing, .pending, .pending], 5, 0⟩ :=
    Relation.ReflTransGen.tail
      (Relation.ReflTransGen.tail
        (Relation.ReflTransGen.tail Relation.ReflTransGen.refl h1) h2) h3
  exact parse_mutual_exclusion 3 5 _ hreach 0 1 (by decide)

/-! ## PDF validation order -/

/-- C5, counterexample: a file that is on disk, non-empty, within the byte
ceiling, lacking the `%PDF-` header, and over the page ceiling. The code
(`_validate_pdf`) raises the header error, while the claimed check order
(byte size, then page count, then magic bytes) would raise the page-count
error first: the five checks are not performed in the claimed order. -/
theorem validate_order_counterexample :
    validatePdf defaultDoclingLimits
        { onDisk := true, size := 100, headerIsPdf := false, pages := 50 }
      = .error .badHeader ∧
    validatePdfSpecOrder defaultDoclingLimits
        { onDisk := true, size := 100, headerIsPdf := false, pages := 50 }
      = .error .tooManyPages ∧
    PdfValidationError.badHeader ≠ PdfValidationError.tooManyPages := by
  refine ⟨rfl, rfl, ?_⟩
  decide

/-- C5, amended: validation fails with a `PDFValidationError` when the file
is missing, empty, over the byte-size ceiling, failing the `%PDF-` magic-byte
check, or over the page-count ceiling — performed in **that** order (the
magic-byte check precedes the page-count check, not the other way round),
each failing check short-circuiting all later ones; a zero-byte file fails
before the parsing engine is ever invoked. -/
theorem validate_order_amended (lim : DoclingLimits) (f : PdfFileInfo)
    (engine : PdfFileInfo → Option PdfContent) :
    (f.onDisk = false → validatePdf lim f = .error .statFailed) ∧
    (f.onDisk = true → f.size = 0 →
      validatePdf lim f = .error .emptyFile) ∧
    (f.onDisk = true → 0 < f.size → lim.max_file_size_bytes < f.size →
      validatePdf lim f = .error .tooLarge) ∧
    (f.onDisk = true → 0 < f.size → f.size ≤ lim.max_file_size_bytes →
      f.headerIsPdf = false → validatePdf lim f = .error .badHeader) ∧
    (f.onDisk = true → 0 < f.size → f.size ≤ lim.max_file_size_bytes →
      f.headerIsPdf = true → lim.max_pages < f.pages →
      validatePdf lim f = .error .tooManyPages) ∧
    (f.onDisk = true → 0 < f.size → f.size ≤ lim.max_file_size_bytes →
      f.headerIsPdf = true → f.pages ≤ lim.max_pages →
      validatePdf lim f = .ok true) ∧
    (∀ e, validatePdf lim f = .error e →
      parsePdfChecked lim f engine = (.error e, false)) ∧
    (f.onDisk = true → f.size = 0 →
      (parsePdfChecked lim f engine).2 = false) := by
  refine ⟨?_, ?_, ?_, ?_, ?_, ?_, ?_, ?_⟩
  · intro h
    simp [validatePdf, h]
  · intro h hz
    simp [validatePdf, h, hz]
  · intro h hz hbig
    have hz' : ¬f.size = 0 := by omega
    simp [validatePdf, h, hz', hbig]
  · intro h hz hsize hhdr
    have hz' : ¬f.size = 0 := by omega
    have hns : ¬lim.max_file_size_bytes < f.size := by omega
    simp [validatePdf, h, hz', hns, hhdr]
  · intro h hz hsize hhdr hpages
    have hz' : ¬f.size = 0 := by omega
    have hns : ¬lim.max_file_size_bytes < f.size := by omega
    simp [validatePdf, h, hz', hns, hhdr, hpages]
  · intro h hz hsize hhdr hpages
    have hz' : ¬f.size = 0 := by omega
    have hns : ¬lim.max_file_size_bytes < f.size := by omega
    have hnp : ¬lim.max_pages < f.pages := by omega
    simp [validatePdf, h, hz', hns, hhdr, hnp]
  · intro e he
    simp [parsePdfChecked, he]
  · intro h hz
    simp [parsePdfChecked, validatePdf, h, hz]

/-- C5, witness: a zero-byte on-disk file fails validation with the
empty-file error and the engine is not invoked; the header check fires
before the page-count check on the counterexample file. -/
theorem validate_order_amended_witness :
    validatePdf defaultDoclingLimits
        { onDisk := true, size := 0, headerIsPdf := false, pages := 0 }
      = .error .emptyFile ∧
    (parsePdfChecked defaultDoclingLimits
        { onDisk := true, size := 0, headerIsPdf := false, pages := 0 }
        (fun _ => none)).2 = false ∧
    validatePdf defaultDoclingLimits
        { onDisk := true, size := 100, headerIsPdf := false, pages := 50 }
      = .error .badHeader := by
  refine ⟨?_, ?_, ?_⟩
  · exact (validate_order_amended defaultDoclingLimits
      { onDisk := true, size := 0, headerIsPdf := false, pages := 0 }
      (fun _ => none)).2.1 rfl rfl
  · exact (validate_order_amended defaultDoclingLimits
      { onDisk := true, size := 0, headerIsPdf := false, pages := 0 }
      (fun _ => none)).2.2.2.2.2.2.2 rfl rfl
  · exact (validate_order_amended defaultDoclingLimits
      { onDisk := true, size := 100, headerIsPdf := false, pages := 50 }
      (fun _ => none)).2.2.2.1 rfl (by decide) (by decide) rfl

end RagCurator
